import Mathlib

/-!
Shallow embedding of the voice streaming pipeline of this repository:
the AudioWorklet frame encoder (static/js/audio/input-pcm-processor.js)
and the VoiceController (static/js/voice.js): capture state machine,
transport messages, base64 PCM decoding and playback scheduling.

Numeric modelling: JavaScript numbers are modelled as exact rationals
(the sample values and times relevant to the claims are exactly
representable, and the conversion/clamping logic is rational-valued);
the Int16Array store's ToInt16 conversion is truncation toward zero,
modelled explicitly by `ratTrunc`.
-/

namespace MappVoice

/-- Truncation toward zero of a rational number, as JavaScript's
ToIntegerOrInfinity performs when a float is stored into an Int16Array
slot (after the processor's explicit clamp keeps it in range). -/
def ratTrunc (q : ℚ) : ℤ := if 0 ≤ q then ⌊q⌋ else ⌈q⌉

/-- One sample of the float→int16 conversion in `InputPCMProcessor.process`:
`let s = float32[i] * 0x7fff; if (s > 0x7fff) s = 0x7fff; else if
(s < -0x8000) s = -0x8000; pcm[i] = s`. -/
def encodeSample (x : ℚ) : ℤ :=
  ratTrunc (if x * 32767 > 32767 then 32767
    else if x * 32767 < -32768 then -32768 else x * 32767)

/-- The whole-quantum conversion of `InputPCMProcessor.process`: a new
Int16Array of the input's length, each slot filled by `encodeSample`. -/
def pcmOfQuantum (input : List ℚ) : List ℤ := input.map encodeSample

/-- Byte length of the transferred Int16Array buffer (two bytes per sample). -/
def pcmByteLength (pcm : List ℤ) : ℕ := 2 * pcm.length

/-- Rounding of a positive rational to the nearest IEEE-754 binary32
value (24-bit significand, normal range): scale into the significand's
binade using the base-2 logarithm, round to the nearest integer, and
scale back. Mathlib's `round` breaks ties upward while binary32 breaks
them to even, but for the values this pipeline produces — integer
multiples of powers of two divided by the odd number 32767 — an exact
tie is impossible (it would force 32767 to divide the int16 sample), so
the two rules agree on every reachable input. -/
def fl32pos (q : ℚ) : ℚ :=
  (round (q * (2 : ℚ) ^ (23 - Int.log 2 q)) : ℚ) * (2 : ℚ) ^ (Int.log 2 q - 23)

/-- IEEE-754 binary32 rounding of a rational in the normal range,
extended to zero and negatives by symmetry (round-to-nearest is odd). -/
def fl32 (q : ℚ) : ℚ :=
  if q = 0 then 0 else if 0 < q then fl32pos q else -fl32pos (-q)

/-- One sample of the int16→float decoding in `b64ToPCM`:
`Float32Array.from(int16, s => s / 0x7fff)`. The quotient is computed
in double precision and stored into a `Float32Array`, i.e. rounded to
binary32; this is modelled as a single correct rounding of the exact
quotient, which is faithful because rounding to 53 bits and then to 24
bits coincides with direct rounding to 24 bits (53 ≥ 2·24 + 2, the
innocuous-double-rounding bound). -/
def decodeSample (v : ℤ) : ℚ := fl32 ((v : ℚ) / 32767)

/-! Base64 decoding: JavaScript's `atob` implements the WHATWG
forgiving-base64 decode; `b64ToPCM` feeds its byte output to an
`Int16Array` view (little endian, throws on odd byte length) and divides
each sample by 0x7fff. -/

/-- ASCII whitespace, which `atob` strips before decoding. -/
def isB64Ws (c : Char) : Bool :=
  c = ' ' || c = '\t' || c = '\n' || c = '\x0c' || c = '\r'

/-- Position of a character in the standard base64 alphabet, `none` for a
character outside it. -/
def b64Index (c : Char) : Option ℕ :=
  if 'A' ≤ c ∧ c ≤ 'Z' then some (c.toNat - 65)
  else if 'a' ≤ c ∧ c ≤ 'z' then some (c.toNat - 97 + 26)
  else if '0' ≤ c ∧ c ≤ '9' then some (c.toNat - 48 + 52)
  else if c = '+' then some 62
  else if c = '/' then some 63
  else none

/-- Removal of up to two trailing padding characters when the input length
is a multiple of four (forgiving-base64 step 2). -/
def stripB64Padding (cs : List Char) : List Char :=
  if cs.length % 4 = 0 then
    match cs.reverse with
    | '=' :: '=' :: rest => rest.reverse
    | '=' :: rest => rest.reverse
    | _ => cs
  else cs

/-- Bit reassembly of base64 sextets into bytes: accumulate six bits per
character, emit a byte whenever eight or more bits are available. -/
def sextetsToBytes : List ℕ → ℕ → ℕ → List ℕ
  | [], _, _ => []
  | v :: rest, acc, nbits =>
    if nbits + 6 ≥ 8 then
      ((acc * 64 + v) / 2 ^ (nbits + 6 - 8)) % 256 ::
        sextetsToBytes rest ((acc * 64 + v) % 2 ^ (nbits + 6 - 8)) (nbits + 6 - 8)
    else
      sextetsToBytes rest (acc * 64 + v) (nbits + 6)

/-- JavaScript `atob` (forgiving-base64 decode): strip ASCII whitespace,
strip padding, fail on a length ≡ 1 (mod 4) or on any character outside
the base64 alphabet, else reassemble the sextets into bytes. `none`
models the thrown `InvalidCharacterError`. -/
def atob (s : String) : Option (List ℕ) :=
  let cs := stripB64Padding (s.data.filter (fun c => ! isB64Ws c))
  if cs.length % 4 = 1 then none
  else
    match cs.mapM b64Index with
    | none => none
    | some vs => some (sextetsToBytes vs 0 0)

/-- Reinterpretation of a byte sequence as little-endian signed 16-bit
integers, as `new Int16Array(bytes.buffer)` does. -/
def bytesToInt16 : List ℕ → List ℤ
  | lo :: hi :: rest =>
    (if lo + 256 * hi < 32768 then (lo + 256 * hi : ℤ)
     else (lo + 256 * hi : ℤ) - 65536) :: bytesToInt16 rest
  | _ => []

/-- Failure modes of the inbound audio decode: `atob` throwing on invalid
base64, or the `Int16Array` constructor throwing on an odd byte length. -/
inductive DecodeErr where
  | invalidBase64 : DecodeErr
  | oddByteLength : DecodeErr
deriving DecidableEq

/-- Decoded inbound audio as produced by `b64ToPCM`: normalized float
samples and a fixed 24 kHz sample rate. -/
structure PlaybackChunk where
  float32 : List ℚ
  sampleRate : ℕ
deriving DecidableEq

/-- The `b64ToPCM` helper of voice.js: base64 → bytes → int16 (little
endian) → floats divided by 0x7fff and stored as binary32
(`decodeSample`), tagged with sampleRate 24000. An error models the
exception the JS code lets escape (it has no catch). -/
def b64ToPCM (b64 : String) : Except DecodeErr PlaybackChunk :=
  match atob b64 with
  | none => .error .invalidBase64
  | some bytes =>
    if bytes.length % 2 = 0 then
      .ok ⟨(bytesToInt16 bytes).map decodeSample, 24000⟩
    else .error .oddByteLength

/-! Playback side of VoiceController (`_playAssistant`): the lazily
created output AudioContext and the buffers handed to the device. Times
are in seconds; `now` is the device's current time when the handler
runs. -/

/-- One output buffer handed to the device: its start time and its
duration (frameCount / sampleRate), in seconds. -/
structure Scheduled where
  startTime : ℚ
  duration : ℚ
deriving DecidableEq

/-- Playback state: the output AudioContext's sample rate when it exists,
and every buffer scheduled so far, in scheduling order. -/
structure PlayState where
  ctxRate : Option ℕ
  scheduled : List Scheduled
deriving DecidableEq

/-- Initial playback state: no AudioContext, nothing scheduled. -/
def initPlay : PlayState := ⟨none, []⟩

/-- The `_playAssistant` method: lazily create the AudioContext at the
chunk's sample rate, build a buffer of `len` samples at `sampleRate`,
connect it and call `src.start()` — with no time argument, so the buffer
starts at the device's current time `now`. No cursor is consulted or
advanced. -/
def playAssistant (now : ℚ) (len : ℕ) (sampleRate : ℕ) (s : PlayState) : PlayState :=
  match s.ctxRate with
  | none =>
    ⟨some sampleRate, s.scheduled ++ [⟨now, (len : ℚ) / (sampleRate : ℚ)⟩]⟩
  | some r =>
    ⟨some r, s.scheduled ++ [⟨now, (len : ℚ) / (sampleRate : ℚ)⟩]⟩

/-- The `assistant_audio` socket handler:
`({ audio }) => this._playAssistant(b64ToPCM(audio))`. There is no
try/catch and no logging here: a decode failure throws before
`_playAssistant` runs, leaving the playback state unchanged; the second
component carries the escaped exception. -/
def onAssistantAudio (audio : String) (now : ℚ) (s : PlayState) :
    PlayState × Option DecodeErr :=
  match b64ToPCM audio with
  | .error e => (s, some e)
  | .ok c => (playAssistant now c.float32.length c.sampleRate s, none)

/-! Capture side of VoiceController: `start`, `stop`, `toggle`,
`_ensureAudioPipeline`, and the per-quantum worklet message that the
port handler forwards as an `audio_chunk` transport message. -/

/-- Error thrown out of `start()`: `getUserMedia` rejecting (permission
denied or no input device). -/
inductive StartErr where
  | deviceUnavailable : StartErr
deriving DecidableEq

/-- Outcomes of the awaited browser calls inside `_ensureAudioPipeline`:
whether `audioWorklet.addModule` resolves and whether `getUserMedia`
grants a device. -/
structure Env where
  moduleLoadOk : Bool
  deviceOk : Bool
deriving DecidableEq

/-- Capture-side state of VoiceController: the recording flag, whether
`this.audioCtx` exists, whether the worklet module loaded, whether the
worklet node is built and the microphone connected to it, and whether
the mic button carries the `active` class. -/
structure VState where
  isRecording : Bool
  hasCtx : Bool
  moduleLoaded : Bool
  hasWorklet : Bool
  buttonActive : Bool
deriving DecidableEq

/-- State of a freshly constructed VoiceController: Idle, no
AudioContext, mic button inactive. -/
def initV : VState := ⟨false, false, false, false, false⟩

/-- The `_ensureAudioPipeline` method: a no-op when `this.audioCtx`
already exists; otherwise create the AudioContext, then `addModule` (its
failure is caught, logged with `console.error`, and the method returns
early — third component records the log), then `getUserMedia` (its
rejection propagates as `DeviceUnavailable`), then build the worklet
node and connect the microphone to it. -/
def ensureAudioPipeline (env : Env) (s : VState) :
    VState × Option StartErr × Bool :=
  if s.hasCtx then (s, none, false)
  else if env.moduleLoadOk = false then
    ({ s with hasCtx := true }, none, true)
  else if env.deviceOk = false then
    ({ s with hasCtx := true, moduleLoaded := true }, some .deviceUnavailable, false)
  else
    ({ s with hasCtx := true, moduleLoaded := true, hasWorklet := true }, none, false)

/-- The `start()` method: no-op if already Recording; otherwise await
`_ensureAudioPipeline` (a thrown error aborts `start` and propagates to
the caller), resume the context, add the `active` class and set
`isRecording = true`. -/
def startV (env : Env) (s : VState) : VState × Option StartErr × Bool :=
  if s.isRecording then (s, none, false)
  else
    match ensureAudioPipeline env s with
    | (s1, some e, lg) => (s1, some e, lg)
    | (s1, none, lg) => ({ s1 with buttonActive := true, isRecording := true }, none, lg)

/-- Transport messages emitted by the controller. -/
inductive Msg where
  | chunk : Msg
  | commit : Msg
deriving DecidableEq

/-- The `stop()` method: no-op if not Recording; otherwise remove the
`active` class, set `isRecording = false` and emit one `audio_commit`. -/
def stopV (s : VState) : VState × List Msg :=
  if s.isRecording then
    ({ s with buttonActive := false, isRecording := false }, [.commit])
  else (s, [])

/-- One audio-render quantum: once the worklet node exists with the
microphone connected, `process()` posts a PCM buffer each quantum and
`worklet.port.onmessage` emits `audio_chunk` unconditionally — the
recording flag is not consulted anywhere on this path. -/
def quantumV (s : VState) : VState × List Msg :=
  (s, if s.hasWorklet then [.chunk] else [])

/-- External events driving the controller. -/
inductive Ev where
  | start : Ev
  | stop : Ev
  | quantum : Ev
deriving DecidableEq

/-- One event step of the controller (a thrown `start` error emits no
transport message). -/
def stepV (env : Env) (s : VState) : Ev → VState × List Msg
  | .start => ((startV env s).1, [])
  | .stop => stopV s
  | .quantum => quantumV s

/-- A run of the controller over a list of events, collecting the
transport messages in emission order. -/
def runV (env : Env) (s : VState) : List Ev → VState × List Msg
  | [] => (s, [])
  | e :: es =>
    ((runV env (stepV env s e).1 es).1,
      (stepV env s e).2 ++ (runV env (stepV env s e).1 es).2)

/-- Number of `audio_commit` messages in a message list. -/
def commitCount (ms : List Msg) : ℕ :=
  (ms.filter (fun m => m = .commit)).length

/-- Number of `audio_chunk` messages in a message list. -/
def chunkCount (ms : List Msg) : ℕ :=
  (ms.filter (fun m => m = .chunk)).length

/-- Number of Recording→Idle transitions along a run. -/
def recToIdle (env : Env) (s : VState) : List Ev → ℕ
  | [] => 0
  | e :: es =>
    (if s.isRecording && !(stepV env s e).1.isRecording then 1 else 0) +
      recToIdle env (stepV env s e).1 es

/-- Number of Idle→Recording transitions along a run. -/
def idleToRec (env : Env) (s : VState) : List Ev → ℕ
  | [] => 0
  | e :: es =>
    (if !s.isRecording && (stepV env s e).1.isRecording then 1 else 0) +
      idleToRec env (stepV env s e).1 es

/-- Number of device-acquisition attempts (`getUserMedia` calls) along a
run: one per `start` event that reaches the `getUserMedia` line, i.e.
when not Recording, no AudioContext exists yet, and `addModule`
resolved. -/
def acquisitions (env : Env) (s : VState) : List Ev → ℕ
  | [] => 0
  | e :: es =>
    (match e with
      | .start =>
        if !s.isRecording && !s.hasCtx && env.moduleLoadOk then 1 else 0
      | _ => 0) +
      acquisitions env (stepV env s e).1 es

/-- Environment in which module load and device acquisition succeed. -/
def goodEnv : Env := ⟨true, true⟩

/-- Environment in which the module loads but `getUserMedia` rejects. -/
def deviceFailEnv : Env := ⟨true, false⟩

/-- Environment in which `addModule` rejects. -/
def moduleFailEnv : Env := ⟨false, true⟩

/-! Helper lemmas about truncation toward zero. -/

/-- Truncation of an integer value is that integer. -/
theorem ratTrunc_intCast (v : ℤ) : ratTrunc (v : ℚ) = v := by
  unfold ratTrunc
  split <;> simp

/-- When the scaled sample is already inside the int16 range, the clamp
is a no-op and `encodeSample` is plain truncation of `x * 32767`. -/
theorem encodeSample_eq_ratTrunc {x : ℚ} (h1 : x * 32767 ≤ 32767)
    (h2 : -32768 ≤ x * 32767) : encodeSample x = ratTrunc (x * 32767) := by
  unfold encodeSample
  rw [if_neg (not_lt.mpr h1), if_neg (not_lt.mpr h2)]

/-- Truncation toward zero never grows the absolute value, and discards
less than one unit. -/
theorem ratTrunc_abs (q : ℚ) :
    |(ratTrunc q : ℚ)| ≤ |q| ∧ |q| < |(ratTrunc q : ℚ)| + 1 := by
  unfold ratTrunc
  split
  · have h0 : (0 : ℚ) ≤ q := by assumption
    have hf : (0 : ℤ) ≤ ⌊q⌋ := Int.floor_nonneg.mpr h0
    rw [abs_of_nonneg h0, abs_of_nonneg (show (0 : ℚ) ≤ (⌊q⌋ : ℚ) by exact_mod_cast hf)]
    exact ⟨Int.floor_le q, Int.lt_floor_add_one q⟩
  · have h0 : q < 0 := lt_of_not_ge (by assumption)
    have hc : ⌈q⌉ ≤ 0 := Int.ceil_le.mpr (by exact_mod_cast h0.le)
    rw [abs_of_neg h0, abs_of_nonpos (show (⌈q⌉ : ℚ) ≤ 0 by exact_mod_cast hc)]
    refine ⟨neg_le_neg (Int.le_ceil q), ?_⟩
    have := Int.ceil_lt_add_one q
    linarith

/-- Truncation toward zero stays between any integer bounds that contain
both the value and zero. -/
theorem ratTrunc_bounds {q : ℚ} {a b : ℤ} (ha : (a : ℚ) ≤ q) (hb : q ≤ (b : ℚ))
    (ha0 : a ≤ 0) (hb0 : 0 ≤ b) : a ≤ ratTrunc q ∧ ratTrunc q ≤ b := by
  unfold ratTrunc
  split
  · have h0 : (0 : ℚ) ≤ q := by assumption
    refine ⟨le_trans ha0 (Int.floor_nonneg.mpr h0), ?_⟩
    have := Int.floor_mono hb
    rwa [Int.floor_intCast] at this
  · have h0 : q < 0 := lt_of_not_ge (by assumption)
    constructor
    · have := Int.ceil_mono ha
      rwa [Int.ceil_intCast] at this
    · exact le_trans (Int.ceil_le.mpr (by exact_mod_cast h0.le)) hb0

/-- C4: the Frame Encoder produces an int16 buffer of equal sample count
(byte length = 2 × sample count), each sample being the input scaled by
32767 and hard-clamped to the int16 range: encode(1.5) = 32767 and
encode(-1.5) = -32768, and no output ever leaves the int16 range
(no wraparound). -/
theorem encoder_scales_and_clamps :
    (∀ input : List ℚ, (pcmOfQuantum input).length = input.length ∧
      pcmByteLength (pcmOfQuantum input) = 2 * input.length) ∧
    encodeSample (3 / 2) = 32767 ∧
    encodeSample (-(3 / 2)) = -32768 ∧
    (∀ x : ℚ, -32768 ≤ encodeSample x ∧ encodeSample x ≤ 32767) := by
  refine ⟨?_, ?_, ?_, ?_⟩
  · intro input
    simp [pcmOfQuantum, pcmByteLength]
  · rw [show encodeSample (3 / 2) = ratTrunc 32767 by
      unfold encodeSample
      rw [if_pos (by norm_num)]]
    rw [show ((32767 : ℚ)) = ((32767 : ℤ) : ℚ) by norm_num, ratTrunc_intCast]
  · rw [show encodeSample (-(3 / 2)) = ratTrunc (-32768) by
      unfold encodeSample
      rw [if_neg (by norm_num), if_pos (by norm_num)]]
    rw [show ((-32768 : ℚ)) = ((-32768 : ℤ) : ℚ) by norm_num, ratTrunc_intCast]
  · intro x
    unfold encodeSample
    split_ifs with hgt hlt
    · rw [show ((32767 : ℚ)) = ((32767 : ℤ) : ℚ) by norm_num, ratTrunc_intCast]
      norm_num
    · rw [show ((-32768 : ℚ)) = ((-32768 : ℤ) : ℚ) by norm_num, ratTrunc_intCast]
      norm_num
    · exact ratTrunc_bounds (by push_cast; linarith) (by push_cast; linarith)
        (by norm_num) (by norm_num)

/-- C10: within the nominal input range the rounding rule of the Frame
Encoder is truncation toward zero: the stored value is `x * 32767` with
its fractional part discarded (its absolute value is shrunk by less than
one unit), and 0.5 encodes to 16383 while -0.5 encodes to -16383. -/
theorem encoder_rounding_truncates_toward_zero :
    (∀ x : ℚ, -1 ≤ x → x ≤ 1 →
      encodeSample x = ratTrunc (x * 32767) ∧
      |(encodeSample x : ℚ)| ≤ |x * 32767| ∧
      |x * 32767| < |(encodeSample x : ℚ)| + 1) ∧
    encodeSample (1 / 2) = 16383 ∧
    encodeSample (-(1 / 2)) = -16383 := by
  refine ⟨?_, ?_, ?_⟩
  · intro x hx1 hx2
    have he : encodeSample x = ratTrunc (x * 32767) :=
      encodeSample_eq_ratTrunc (by linarith) (by linarith)
    refine ⟨he, ?_, ?_⟩
    · rw [he]; exact (ratTrunc_abs (x * 32767)).1
    · rw [he]; exact (ratTrunc_abs (x * 32767)).2
  · rw [encodeSample_eq_ratTrunc (by norm_num) (by norm_num)]
    norm_num [ratTrunc]
  · rw [encodeSample_eq_ratTrunc (by norm_num) (by norm_num)]
    norm_num [ratTrunc, show (-(1 / 2) : ℚ) * 32767 = -(32767 / 2) by ring, Int.ceil_neg]

/-- Witness for C10 at the concrete input 0.5. -/
theorem encoder_rounding_truncates_toward_zero_witness :
    encodeSample (1 / 2) = ratTrunc ((1 / 2 : ℚ) * 32767) ∧
    |(encodeSample (1 / 2 : ℚ) : ℚ)| ≤ |(1 / 2 : ℚ) * 32767| ∧
    |(1 / 2 : ℚ) * 32767| < |(encodeSample (1 / 2 : ℚ) : ℚ)| + 1 :=
  encoder_rounding_truncates_toward_zero.1 (1 / 2) (by norm_num) (by norm_num)

/-- Uniqueness of the base-2 logarithm from binade membership. -/
theorem log2_eq_of_bounds {q : ℚ} {e : ℤ} (h1 : (2 : ℚ) ^ e ≤ q)
    (h2 : q < (2 : ℚ) ^ (e + 1)) : Int.log 2 q = e := by
  have hq : 0 < q := lt_of_lt_of_le (zpow_pos (by norm_num) e) h1
  have hle : e ≤ Int.log 2 q := by
    rw [← Int.zpow_le_iff_le_log (show (1 : ℕ) < 2 by norm_num) hq]
    exact_mod_cast h1
  have hlt : Int.log 2 q < e + 1 := by
    by_contra hcon
    push_neg at hcon
    have hlog := Int.zpow_log_le_self (show (1 : ℕ) < 2 by norm_num) hq
    push_cast at hlog
    have hstep : (2 : ℚ) ^ (e + 1) ≤ (2 : ℚ) ^ (Int.log 2 q) :=
      zpow_le_zpow_right₀ (by norm_num) hcon
    linarith
  omega

/-- Half-ulp error bound of binary32 rounding on positive rationals:
the rounded value differs from q by at most q / 2^24. -/
theorem fl32pos_sub_abs {q : ℚ} (hq : 0 < q) : |fl32pos q - q| ≤ q / 2 ^ 24 := by
  have h2z : (2 : ℚ) ≠ 0 := by norm_num
  have hqm : fl32pos q - q =
      ((round (q * (2 : ℚ) ^ (23 - Int.log 2 q)) : ℚ) -
        q * (2 : ℚ) ^ (23 - Int.log 2 q)) * (2 : ℚ) ^ (Int.log 2 q - 23) := by
    rw [fl32pos, sub_mul, mul_assoc, ← zpow_add₀ h2z,
      show 23 - Int.log 2 q + (Int.log 2 q - 23) = 0 from by ring, zpow_zero, mul_one]
  have hb : |(round (q * (2 : ℚ) ^ (23 - Int.log 2 q)) : ℚ) -
      q * (2 : ℚ) ^ (23 - Int.log 2 q)| ≤ 1 / 2 := by
    rw [abs_sub_comm]
    exact abs_sub_round _
  have hpos : (0 : ℚ) < (2 : ℚ) ^ (Int.log 2 q - 23) := zpow_pos (by norm_num) _
  have hle : (2 : ℚ) ^ (Int.log 2 q) ≤ q := by
    have h := Int.zpow_log_le_self (show (1 : ℕ) < 2 by norm_num) hq
    push_cast at h
    exact h
  rw [hqm, abs_mul, abs_of_pos hpos]
  refine le_trans (mul_le_mul_of_nonneg_right hb hpos.le) ?_
  have hrw : (1 / 2 : ℚ) * (2 : ℚ) ^ (Int.log 2 q - 23) =
      (2 : ℚ) ^ (Int.log 2 q) / 2 ^ 24 := by
    rw [zpow_sub₀ h2z, show ((2 : ℚ) ^ (23 : ℤ)) = 2 ^ (23 : ℕ) from by norm_num,
      mul_comm, mul_one_div, div_div]
    norm_num
  rw [hrw]
  exact (div_le_div_iff_of_pos_right (by positivity)).mpr hle

/-- Truncation toward zero of a value within 1/500 of a positive
integer v lands on v or v - 1. -/
theorem ratTrunc_near_pos {t : ℚ} {v : ℤ} (hv : 1 ≤ v)
    (h1 : (v : ℚ) - 1 / 500 ≤ t) (h2 : t ≤ (v : ℚ) + 1 / 500) :
    ratTrunc t = v ∨ ratTrunc t = v - 1 := by
  have hv1 : (1 : ℚ) ≤ (v : ℚ) := by exact_mod_cast hv
  have ht0 : (0 : ℚ) ≤ t := by linarith
  rw [ratTrunc, if_pos ht0]
  rcases le_or_lt (v : ℚ) t with h | h
  · left
    rw [Int.floor_eq_iff]
    refine ⟨h, ?_⟩
    linarith
  · right
    rw [Int.floor_eq_iff]
    constructor
    · push_cast
      linarith
    · push_cast
      linarith

/-- Truncation toward zero of a value within 1/500 of a negative
integer v lands on v or v + 1. -/
theorem ratTrunc_near_neg {t : ℚ} {v : ℤ} (hv : v ≤ -1)
    (h1 : (v : ℚ) - 1 / 500 ≤ t) (h2 : t ≤ (v : ℚ) + 1 / 500) :
    ratTrunc t = v ∨ ratTrunc t = v + 1 := by
  have hv1 : (v : ℚ) ≤ -1 := by exact_mod_cast hv
  have ht0 : ¬ (0 : ℚ) ≤ t := by linarith
  rw [ratTrunc, if_neg ht0]
  rcases le_or_lt t (v : ℚ) with h | h
  · left
    rw [Int.ceil_eq_iff]
    refine ⟨?_, h⟩
    linarith
  · right
    rw [Int.ceil_eq_iff]
    constructor
    · push_cast
      linarith
    · push_cast
      linarith

/-- Encoding a float within 1/500·(1/32767) of a positive int16 value v
yields v or v - 1 (the clamp can only fire at v = 32767, where it
returns v). -/
theorem encodeSample_of_close_pos {x : ℚ} {v : ℤ} (hv1 : 1 ≤ v) (hv2 : v ≤ 32767)
    (hc : |x * 32767 - (v : ℚ)| ≤ 1 / 500) :
    encodeSample x = v ∨ encodeSample x = v - 1 := by
  obtain ⟨hlo, hhi⟩ := abs_le.mp hc
  have hv1' : (1 : ℚ) ≤ (v : ℚ) := by exact_mod_cast hv1
  have hv2' : (v : ℚ) ≤ 32767 := by exact_mod_cast hv2
  rw [encodeSample]
  split_ifs with hgt hlt
  · have h32766 : (32766 : ℤ) < v := by
      have : (32766 : ℚ) < (v : ℚ) := by linarith
      exact_mod_cast this
    have hveq : v = 32767 := by omega
    left
    rw [hveq, show ((32767 : ℚ)) = ((32767 : ℤ) : ℚ) from by norm_num, ratTrunc_intCast]
  · exfalso
    linarith
  · exact ratTrunc_near_pos hv1 (by linarith) (by linarith)

/-- Encoding a float within 1/500·(1/32767) of a negative int16 value v
with v ≥ -32767 yields v or v + 1 (neither clamp can fire). -/
theorem encodeSample_of_close_neg {x : ℚ} {v : ℤ} (hv1 : v ≤ -1) (hv2 : -32767 ≤ v)
    (hc : |x * 32767 - (v : ℚ)| ≤ 1 / 500) :
    encodeSample x = v ∨ encodeSample x = v + 1 := by
  obtain ⟨hlo, hhi⟩ := abs_le.mp hc
  have hv1' : (v : ℚ) ≤ -1 := by exact_mod_cast hv1
  have hv2' : (-32767 : ℚ) ≤ (v : ℚ) := by exact_mod_cast hv2
  rw [encodeSample]
  split_ifs with hgt hlt
  · exfalso
    linarith
  · exfalso
    linarith
  · exact ratTrunc_near_neg hv1 (by linarith) (by linarith)

/-- C9 counterexample: the float32 store in `b64ToPCM` breaks the exact
round-trip. fl32(1 / 32767) = (2^15 + 1) / 2^30; re-encoding multiplies
back by 32767 giving 1 - 2^-30, which truncation toward zero takes to
0, not 1. -/
theorem decode_encode_float32_counterexample :
    encodeSample (decodeSample 1) ≠ 1 ∧ encodeSample (decodeSample 1) = 0 := by
  have hlog : Int.log 2 ((1 : ℚ) / 32767) = -15 :=
    log2_eq_of_bounds (by norm_num) (by norm_num)
  have hd : decodeSample 1 = 32769 / 1073741824 := by
    rw [decodeSample]
    push_cast
    rw [fl32, if_neg (by norm_num), if_pos (by norm_num), fl32pos, hlog]
    rw [show (23 - (-15 : ℤ)) = 38 from by norm_num,
      show ((-15 : ℤ) - 23) = -38 from by norm_num, round_eq]
    norm_num
  have he : encodeSample ((32769 : ℚ) / 1073741824) = 0 := by
    rw [encodeSample, if_neg (by norm_num), if_neg (by norm_num), ratTrunc,
      if_pos (by norm_num)]
    norm_num
  rw [hd, he]
  norm_num

/-- C9 amended: with the float32 store of `b64ToPCM`, decoding an int16
sample v (division by 32767 rounded to binary32) and re-encoding it
(scaling by 32767 with clamping and truncation toward zero) returns a
value within one unit of v on the zero-ward side — v itself, v - 1 for
positive v, or v + 1 for negative v — for every -32767 ≤ v ≤ 32767
(the exact identity fails, e.g. v = 1 returns 0); and v = -32768 still
decodes to a float strictly below -1, outside the encoder's nominal
input range. -/
theorem decode_encode_roundtrip_within_one :
    (∀ v : ℤ, -32767 ≤ v → v ≤ 32767 →
      encodeSample (decodeSample v) = v ∨
      (0 < v ∧ encodeSample (decodeSample v) = v - 1) ∨
      (v < 0 ∧ encodeSample (decodeSample v) = v + 1)) ∧
    decodeSample (-32768) < -1 := by
  constructor
  · intro v h1 h2
    rcases lt_trichotomy v 0 with hneg | h0 | hpos
    · have hvq : ((v : ℚ)) < 0 := by exact_mod_cast hneg
      have hq : (v : ℚ) / 32767 < 0 := div_neg_of_neg_of_pos hvq (by norm_num)
      have hd : decodeSample v = -fl32pos (-((v : ℚ) / 32767)) := by
        rw [decodeSample, fl32, if_neg (ne_of_lt hq), if_neg (not_lt.mpr hq.le)]
      have hqpos : (0 : ℚ) < -((v : ℚ) / 32767) := by linarith
      have herr := fl32pos_sub_abs hqpos
      have hv' : -(v : ℚ) ≤ 32767 := by
        have : (-32767 : ℚ) ≤ (v : ℚ) := by exact_mod_cast h1
        linarith
      have hkey : |(-fl32pos (-((v : ℚ) / 32767))) * 32767 - (v : ℚ)| ≤ 1 / 500 := by
        have heq : (-fl32pos (-((v : ℚ) / 32767))) * 32767 - (v : ℚ) =
            -((fl32pos (-((v : ℚ) / 32767)) - -((v : ℚ) / 32767)) * 32767) := by
          ring
        rw [heq, abs_neg, abs_mul, show |(32767 : ℚ)| = 32767 from by norm_num]
        calc |fl32pos (-((v : ℚ) / 32767)) - -((v : ℚ) / 32767)| * 32767
            ≤ -((v : ℚ) / 32767) / 2 ^ 24 * 32767 :=
              mul_le_mul_of_nonneg_right herr (by norm_num)
          _ = -(v : ℚ) / 2 ^ 24 := by ring
          _ ≤ 32767 / 2 ^ 24 := by linarith
          _ ≤ 1 / 500 := by norm_num
      rw [hd]
      rcases encodeSample_of_close_neg (by omega) h1 hkey with h | h
      · exact Or.inl h
      · exact Or.inr (Or.inr ⟨hneg, h⟩)
    · subst h0
      left
      rw [decodeSample]
      rw [show ((0 : ℤ) : ℚ) / 32767 = 0 from by norm_num, fl32, if_pos rfl,
        encodeSample, if_neg (by norm_num), if_neg (by norm_num), ratTrunc,
        if_pos (by norm_num)]
      norm_num
    · have hvq : (0 : ℚ) < (v : ℚ) := by exact_mod_cast hpos
      have hq : (0 : ℚ) < (v : ℚ) / 32767 := div_pos hvq (by norm_num)
      have hd : decodeSample v = fl32pos ((v : ℚ) / 32767) := by
        rw [decodeSample, fl32, if_neg (ne_of_gt hq), if_pos hq]
      have herr := fl32pos_sub_abs hq
      have hv' : (v : ℚ) ≤ 32767 := by exact_mod_cast h2
      have hkey : |fl32pos ((v : ℚ) / 32767) * 32767 - (v : ℚ)| ≤ 1 / 500 := by
        have heq : fl32pos ((v : ℚ) / 32767) * 32767 - (v : ℚ) =
            (fl32pos ((v : ℚ) / 32767) - (v : ℚ) / 32767) * 32767 := by
          ring
        rw [heq, abs_mul, show |(32767 : ℚ)| = 32767 from by norm_num]
        calc |fl32pos ((v : ℚ) / 32767) - (v : ℚ) / 32767| * 32767
            ≤ (v : ℚ) / 32767 / 2 ^ 24 * 32767 :=
              mul_le_mul_of_nonneg_right herr (by norm_num)
          _ = (v : ℚ) / 2 ^ 24 := by ring
          _ ≤ 32767 / 2 ^ 24 := by linarith
          _ ≤ 1 / 500 := by norm_num
      rw [hd]
      rcases encodeSample_of_close_pos (by omega) h2 hkey with h | h
      · exact Or.inl h
      · exact Or.inr (Or.inl ⟨hpos, h⟩)
  · have hq : ((-32768 : ℤ) : ℚ) / 32767 < 0 := by
      norm_num
    have hd : decodeSample (-32768) = -fl32pos (-(((-32768 : ℤ) : ℚ) / 32767)) := by
      rw [decodeSample, fl32, if_neg (ne_of_lt hq), if_neg (not_lt.mpr hq.le)]
    have hq' : (0 : ℚ) < -(((-32768 : ℤ) : ℚ) / 32767) := by linarith
    have herr := fl32pos_sub_abs hq'
    have hlo := (abs_le.mp herr).1
    have hgap : -(((-32768 : ℤ) : ℚ) / 32767) - -(((-32768 : ℤ) : ℚ) / 32767) / 2 ^ 24 > 1 := by
      norm_num
    rw [hd]
    linarith

/-- Witness for the amended C9 at the concrete int16 value 1. -/
theorem decode_encode_roundtrip_within_one_witness :
    encodeSample (decodeSample 1) = 1 ∨
    (0 < (1 : ℤ) ∧ encodeSample (decodeSample 1) = 1 - 1) ∨
    ((1 : ℤ) < 0 ∧ encodeSample (decodeSample 1) = 1 + 1) :=
  decode_encode_roundtrip_within_one.1 1 (by norm_num) (by norm_num)

/-! Playback Scheduler claims. -/

/-- C1 counterexample: `_playAssistant` keeps no timeline cursor. A
200 ms chunk (4800 samples at 24 kHz) scheduled at device time 0,
followed by a second 200 ms chunk arriving at device time 0.01 (bursty
arrival, well before the first finishes), schedules the second chunk at
0.01 — earlier than C1_start + 200 ms = 0.2 — so the second chunk starts
before its predecessor ends and overlaps it, refuting the claimed
`max(cursor, device_now)` schedule. -/
theorem playback_no_cursor_counterexample :
    (playAssistant (1 / 100) 4800 24000 (playAssistant 0 4800 24000 initPlay)).scheduled =
      [⟨0, 1 / 5⟩, ⟨1 / 100, 1 / 5⟩] ∧
    (1 / 100 : ℚ) < 0 + 1 / 5 := by
  constructor
  · simp only [playAssistant, initPlay]
    norm_num
  · norm_num

/-- C1 amended: the Playback Scheduler maintains no cursor; every
inbound chunk is appended to the device schedule with start time equal
to the device's current time at arrival (`src.start()` with no time
argument) and duration frameCount / sampleRate. Chunks are scheduled in
arrival order, but a chunk arriving while its predecessor still plays
starts immediately and overlaps it rather than being deferred to the
predecessor's end. -/
theorem playAssistant_schedules_at_device_now (now : ℚ) (len rate : ℕ)
    (s : PlayState) :
    (playAssistant now len rate s).scheduled =
      s.scheduled ++ [⟨now, (len : ℚ) / (rate : ℚ)⟩] := by
  unfold playAssistant
  cases s.ctxRate <;> simp

/-- C5 counterexample: the `assistant_audio` handler has no try/catch
and no logging: on payload `"not-base64!!"` the base64 decode throws and
the exception escapes the handler (second component), rather than the
chunk being dropped with a logged warning. -/
theorem malformed_payload_throws_counterexample :
    onAssistantAudio "not-base64!!" 0 initPlay =
      (initPlay, some DecodeErr.invalidBase64) := by
  have h : atob "not-base64!!" = none := by decide
  simp [onAssistantAudio, b64ToPCM, h]

/-- C5 amended: a malformed `assistant_audio` payload makes the decode
throw before any scheduling: zero new chunks are scheduled and the
playback state (context and schedule) is left entirely unchanged, and
processing of later messages starts from that unchanged state; but the
failure is an exception escaping the handler, not a logged warning —
this code contains no catch and no warning log on that path. -/
theorem malformed_payload_leaves_playback_unchanged (audio : String) (now : ℚ)
    (s : PlayState) (e : DecodeErr) (h : b64ToPCM audio = .error e) :
    onAssistantAudio audio now s = (s, some e) := by
  simp [onAssistantAudio, h]

/-- Witness for the amended C5 on the concrete payload `"not-base64!!"`
against a non-empty playback state. -/
theorem malformed_payload_leaves_playback_unchanged_witness :
    onAssistantAudio "not-base64!!" (1 / 2) ⟨some 24000, [⟨0, 1 / 5⟩]⟩ =
      (⟨some 24000, [⟨0, 1 / 5⟩]⟩, some DecodeErr.invalidBase64) :=
  malformed_payload_leaves_playback_unchanged "not-base64!!" (1 / 2)
    ⟨some 24000, [⟨0, 1 / 5⟩]⟩ DecodeErr.invalidBase64
    (by rw [b64ToPCM, show atob "not-base64!!" = none from by decide])

/-! Capture Session Controller claims. -/

/-- Counting commits distributes over message concatenation. -/
theorem commitCount_append (a b : List Msg) :
    commitCount (a ++ b) = commitCount a + commitCount b := by
  simp [commitCount, List.filter_append]

/-- One controller step emits a commit exactly when it takes the
recording flag from true to false. -/
theorem stepV_commitCount (env : Env) (s : VState) (e : Ev) :
    commitCount (stepV env s e).2 =
      if s.isRecording && !(stepV env s e).1.isRecording then 1 else 0 := by
  rcases s with ⟨ir, hc, ml, hw, ba⟩
  cases e <;> cases ir <;>
    simp [stepV, startV, stopV, quantumV, commitCount]

/-- C2: over every event sequence (start, stop and render quanta, from
any controller state), the number of `audio_commit` messages emitted on
the transport equals the number of Recording→Idle transitions; in
particular no commit is ever sent without a Recording phase ending. -/
theorem audio_commit_counts_transitions (env : Env) (es : List Ev) :
    ∀ s : VState, commitCount (runV env s es).2 = recToIdle env s es := by
  induction es with
  | nil => intro s; rfl
  | cons e es ih =>
    intro s
    simp only [runV, recToIdle]
    rw [commitCount_append, ih, stepV_commitCount]

/-- C3 counterexample: after `start()` then `stop()` the session is
Idle, yet the very next render quantum still emits an `audio_chunk` —
the worklet keeps posting and the port handler keeps forwarding,
because nothing on that path consults the recording flag. -/
theorem chunk_after_stop_counterexample :
    (runV goodEnv initV [.start, .stop]).1.isRecording = false ∧
    (runV goodEnv initV [.start, .stop, .quantum]).2 = [.commit, .chunk] := by
  decide

/-- C3 amended: `start()`, ten quanta, `stop()` yields exactly 10
`audio_chunk` messages followed by exactly 1 `audio_commit`, with the
state Idle immediately after `stop()`, and no `audio_chunk` is sent
before the first `start()` (no worklet exists yet); but once the
pipeline exists a chunk is emitted every quantum regardless of the
Recording state — emission depends only on the worklet being connected,
so chunks continue after `stop()`. -/
theorem chunks_per_quantum_then_commit :
    (runV goodEnv initV ([.start] ++ List.replicate 10 .quantum ++ [.stop])).2 =
      List.replicate 10 Msg.chunk ++ [Msg.commit] ∧
    (runV goodEnv initV ([.start] ++ List.replicate 10 .quantum ++ [.stop])).1.isRecording
      = false ∧
    (∀ n : ℕ, (runV goodEnv initV (List.replicate n .quantum)).2 = []) ∧
    (∀ s : VState, (quantumV s).2 = if s.hasWorklet then [Msg.chunk] else []) := by
  refine ⟨by decide, by decide, ?_, fun s => rfl⟩
  intro n
  induction n with
  | zero => rfl
  | succ n ih =>
    rw [List.replicate_succ]
    simp only [runV]
    rw [show (stepV goodEnv initV .quantum) = (initV, []) from rfl]
    simpa using ih

/-- C6: `start()` and `stop()` are idempotent. With a usable device, a
second consecutive `start()` is a no-op (same final state, same
messages) from any state, and a second consecutive `stop()` is a no-op
from any state; from a fresh session two consecutive `start()` calls
cause exactly one Idle→Recording transition and exactly one
device-acquisition attempt, and from a Recording session two
consecutive `stop()` calls cause exactly one Recording→Idle
transition. -/
theorem start_stop_idempotent :
    (∀ env : Env, ∀ s : VState, env.deviceOk = true →
      runV env s [.start, .start] = runV env s [.start]) ∧
    (∀ env : Env, ∀ s : VState, runV env s [.stop, .stop] = runV env s [.stop]) ∧
    idleToRec goodEnv initV [.start, .start] = 1 ∧
    acquisitions goodEnv initV [.start, .start] = 1 ∧
    recToIdle goodEnv ⟨true, true, true, true, true⟩ [.stop, .stop] = 1 := by
  refine ⟨?_, ?_, by decide, by decide, by decide⟩
  · rintro ⟨mo, dk⟩ ⟨ir, hc, ml, hw, ba⟩ h
    cases h
    cases ir <;> cases hc <;> cases mo <;>
      simp [runV, stepV, startV, ensureAudioPipeline]
  · rintro env ⟨ir, hc, ml, hw, ba⟩
    cases ir <;> simp [runV, stepV, stopV]

/-- Witness for C6: the second `start()` of a fresh session in the
all-success environment is a no-op. -/
theorem start_stop_idempotent_witness :
    runV goodEnv initV [.start, .start] = runV goodEnv initV [.start] :=
  start_stop_idempotent.1 goodEnv initV rfl

/-- C7: when `getUserMedia` rejects during `start()` (permission denied
or no input device), the attempt surfaces `DeviceUnavailable` to the
caller, makes exactly one acquisition attempt (no auto-retry), and
leaves the session Idle with the mic button's class untouched (so a
previously inactive control stays inactive). -/
theorem start_device_failure_leaves_idle (s : VState)
    (h1 : s.isRecording = false) (h2 : s.hasCtx = false) :
    (startV deviceFailEnv s).2.1 = some StartErr.deviceUnavailable ∧
    (startV deviceFailEnv s).1.isRecording = false ∧
    (startV deviceFailEnv s).1.buttonActive = s.buttonActive ∧
    acquisitions deviceFailEnv s [.start] = 1 := by
  rcases s with ⟨ir, hc, ml, hw, ba⟩
  cases h1
  cases h2
  simp [startV, ensureAudioPipeline, deviceFailEnv, acquisitions, stepV]

/-- Witness for C7: device failure on a fresh session. -/
theorem start_device_failure_leaves_idle_witness :
    (startV deviceFailEnv initV).2.1 = some StartErr.deviceUnavailable ∧
    (startV deviceFailEnv initV).1.isRecording = false ∧
    (startV deviceFailEnv initV).1.buttonActive = initV.buttonActive ∧
    acquisitions deviceFailEnv initV [.start] = 1 :=
  start_device_failure_leaves_idle initV rfl rfl

/-- C8 counterexample: when `addModule` rejects on the first `start()`,
the failure is caught and logged inside `_ensureAudioPipeline`, which
returns early — but `start()` then continues: the session DOES enter
the Recording state and the mic control DOES get the `active` class,
refuting the claim that a failed module load leaves the session
non-Recording with an inactive mic control. -/
theorem module_failure_still_records_counterexample :
    (startV moduleFailEnv initV).1.isRecording = true ∧
    (startV moduleFailEnv initV).1.buttonActive = true := by
  decide

/-- C8 amended: a module-load failure during the first `start()` is
caught and surfaced only as a `console.error` log (nothing is thrown to
the caller); pipeline setup stops before `getUserMedia` (zero
acquisition attempts) and no worklet is ever built, so no audio chunk
is ever produced — the failure is terminal for the session's capture
path — but `start()` itself still completes: the state becomes
Recording and the mic control shows active. -/
theorem module_failure_logged_but_start_completes (s : VState)
    (h1 : s.isRecording = false) (h2 : s.hasCtx = false)
    (h3 : s.hasWorklet = false) :
    (startV moduleFailEnv s).2.2 = true ∧
    (startV moduleFailEnv s).2.1 = none ∧
    (startV moduleFailEnv s).1.isRecording = true ∧
    (startV moduleFailEnv s).1.buttonActive = true ∧
    (startV moduleFailEnv s).1.hasWorklet = false ∧
    acquisitions moduleFailEnv s [.start] = 0 ∧
    (quantumV (startV moduleFailEnv s).1).2 = [] := by
  rcases s with ⟨ir, hc, ml, hw, ba⟩
  cases h1
  cases h2
  cases h3
  simp [startV, ensureAudioPipeline, moduleFailEnv, acquisitions, stepV, quantumV]

/-- Witness for the amended C8 on a fresh session. -/
theorem module_failure_logged_but_start_completes_witness :
    (startV moduleFailEnv initV).2.2 = true ∧
    (startV moduleFailEnv initV).2.1 = none ∧
    (startV moduleFailEnv initV).1.isRecording = true ∧
    (startV moduleFailEnv initV).1.buttonActive = true ∧
    (startV moduleFailEnv initV).1.hasWorklet = false ∧
    acquisitions moduleFailEnv initV [.start] = 0 ∧
    (quantumV (startV moduleFailEnv initV).1).2 = [] :=
  module_failure_logged_but_start_completes initV rfl rfl rfl

end MappVoice
